import Mathlib

/-
Verification of the AtlasBridge governance decision pipeline.

Shallow embedding of the core components described in the repository:

* `atlasbridge/core/autopilot/trace.py` — the hash-chained decision trace
  (`DecisionTrace.record`, `_maybe_rotate`, `_compute_hash`,
  `DecisionTrace.verify_integrity`);
* `atlasbridge/core/store/workspace_trust.py` — workspace trust with TTL
  (`get_trust`, `get_workspace_context`), the advisory scanner
  (`scan_workspace`, `_compute_scan_inputs_hash`, `_suggest_profile`);
* the policy evaluator, prompt state machine and the atomic
  `decide_prompt` guard, whose implementations are exercised by the
  repository's safety tests; where an implementation file is absent the
  definition is modelled from the specification (marked in its doc comment).

SHA-256 (`hashlib.sha256(...).hexdigest()`) is abstracted as a function
parameter `H : String → String`; theorems that need collision-freedom take
`Function.Injective H` as an explicit hypothesis.
-/

namespace AtlasBridge

/-- Modelled from the spec: the `PolicyDecision` payload serialized by
`PolicyDecision.to_dict` (the policy model module is not part of the source
tree; the field list follows spec section 3).  Nullable fields are carried
as plain strings, which is immaterial to the chain logic. -/
structure Decision where
  prompt_id : String
  session_id : String
  policy_hash : String
  matched_rule_id : String
  action_type : String
  action_value : String
  explanation : String
  confidence : String
  prompt_type : String
  autonomy_mode : String
  idempotency_key : String
  deriving DecidableEq, Repr, Inhabited

/-- A trace entry before its own `hash` field is attached: the decision
dict plus the `prev_hash` field added by `DecisionTrace.record`. -/
structure TraceEntry where
  decision : Decision
  prev_hash : String
  deriving DecidableEq, Repr, Inhabited

/-- Canonical JSON of a trace entry as hashed by `_compute_hash`:
`json.dumps(entry_dict, separators=(",", ":"), sort_keys=True)`, keys in
sorted order, taken at the point where the entry holds the decision fields
plus `prev_hash` but not yet `hash`.  String values are rendered verbatim:
the values recorded by the pipeline contain no characters that JSON string
escaping would rewrite. -/
def canonJson (e : TraceEntry) : String :=
  "\x7b\"action_type\":\"" ++ e.decision.action_type
    ++ "\",\"action_value\":\"" ++ e.decision.action_value
    ++ "\",\"autonomy_mode\":\"" ++ e.decision.autonomy_mode
    ++ "\",\"confidence\":\"" ++ e.decision.confidence
    ++ "\",\"explanation\":\"" ++ e.decision.explanation
    ++ "\",\"idempotency_key\":\"" ++ e.decision.idempotency_key
    ++ "\",\"matched_rule_id\":\"" ++ e.decision.matched_rule_id
    ++ "\",\"policy_hash\":\"" ++ e.decision.policy_hash
    ++ "\",\"prev_hash\":\"" ++ e.prev_hash
    ++ "\",\"prompt_id\":\"" ++ e.decision.prompt_id
    ++ "\",\"prompt_type\":\"" ++ e.decision.prompt_type
    ++ "\",\"session_id\":\"" ++ e.decision.session_id
    ++ "\"\x7d"

/-- The chain input string built by `_compute_hash`:
`prev_hash + idempotency_key + action_type + canonical JSON`. -/
def hashInput (prev : String) (e : TraceEntry) : String :=
  prev ++ e.decision.idempotency_key ++ e.decision.action_type ++ canonJson e

/-- `_compute_hash(prev_hash, entry_dict)`: SHA-256 hex digest of the chain
input, with SHA-256 abstracted as `H`. -/
def computeHash (H : String → String) (prev : String) (e : TraceEntry) : String :=
  H (hashInput prev e)

/-- One line of the trace file: the entry together with its stored `hash`
field. -/
structure StoredEntry where
  entry : TraceEntry
  hash : String
  deriving DecidableEq, Repr, Inhabited

/-- In-memory state of a `DecisionTrace` plus the files it owns: the active
`.jsonl` file (a missing file is modelled as the empty list), the in-memory
`_last_hash`, and the archive files `.jsonl.1`, `.jsonl.2`, ... -/
structure TraceState where
  active : List StoredEntry
  lastHash : String
  archives : Nat → Option (List StoredEntry)

/-- `DecisionTrace.MAX_ARCHIVES`. -/
def MAX_ARCHIVES : Nat := 3

/-- The JSON line `record` writes for one entry (decision fields in their
dict insertion order, then `prev_hash`, then `hash`); only its length
feeds the rotation size check. -/
def storedJson (x : StoredEntry) : String :=
  "\x7b\"prompt_id\":\"" ++ x.entry.decision.prompt_id
    ++ "\",\"session_id\":\"" ++ x.entry.decision.session_id
    ++ "\",\"policy_hash\":\"" ++ x.entry.decision.policy_hash
    ++ "\",\"matched_rule_id\":\"" ++ x.entry.decision.matched_rule_id
    ++ "\",\"action_type\":\"" ++ x.entry.decision.action_type
    ++ "\",\"action_value\":\"" ++ x.entry.decision.action_value
    ++ "\",\"explanation\":\"" ++ x.entry.decision.explanation
    ++ "\",\"confidence\":\"" ++ x.entry.decision.confidence
    ++ "\",\"prompt_type\":\"" ++ x.entry.decision.prompt_type
    ++ "\",\"autonomy_mode\":\"" ++ x.entry.decision.autonomy_mode
    ++ "\",\"idempotency_key\":\"" ++ x.entry.decision.idempotency_key
    ++ "\",\"prev_hash\":\"" ++ x.entry.prev_hash
    ++ "\",\"hash\":\"" ++ x.hash
    ++ "\"\x7d"

/-- Size in bytes of the active file: each entry is one JSON line plus a
newline (`fh.write(line + "\n")`). -/
def fileSize (l : List StoredEntry) : Nat :=
  (l.map (fun x => (storedJson x).length + 1)).sum

/-- One iteration of the archive shift: rename `.jsonl.i` to `.jsonl.(i+1)`
when `.jsonl.i` exists (the rename overwrites any file already at the
target index, which is how the oldest archive is discarded). -/
def renameArchive (arch : Nat → Option (List StoredEntry)) (i : Nat) :
    Nat → Option (List StoredEntry) :=
  match arch i with
  | none => arch
  | some f => fun j => if j = i + 1 then some f else if j = i then none else arch j

/-- The shift loop `for i in range(MAX_ARCHIVES - 1, 0, -1)`: indices are
processed from `MAX_ARCHIVES - 1` down to `1`. -/
def shiftDown (arch : Nat → Option (List StoredEntry)) :
    Nat → (Nat → Option (List StoredEntry))
  | 0 => arch
  | i + 1 => shiftDown (renameArchive arch (i + 1)) i

/-- The rotate branch of `_maybe_rotate`: shift the archives, move the
active file to `.jsonl.1`, and reset the in-memory last hash so a new chain
starts after rotation. -/
def rotate (st : TraceState) : TraceState :=
  let arch := shiftDown st.archives (MAX_ARCHIVES - 1)
  { active := [], lastHash := "",
    archives := fun j => if j = 1 then some st.active else arch j }

/-- `DecisionTrace._maybe_rotate`: rotate when the active file size has
reached `max_bytes`.  A missing active file (modelled as the empty list,
size 0) is never at or beyond the positive default `max_bytes`. -/
def maybeRotate (maxBytes : Nat) (st : TraceState) : TraceState :=
  if fileSize st.active < maxBytes then st else rotate st

/-- `DecisionTrace.record`: rotate if needed, build the entry with
`prev_hash := _last_hash`, hash it, append the line, and advance the
in-memory last hash. -/
def record (H : String → String) (maxBytes : Nat) (st : TraceState) (d : Decision) :
    TraceState :=
  let st := maybeRotate maxBytes st
  let e : TraceEntry := ⟨d, st.lastHash⟩
  let h := computeHash H st.lastHash e
  { st with active := st.active ++ [⟨e, h⟩], lastHash := h }

/-- A sequence of `record` calls. -/
def recordAll (H : String → String) (maxBytes : Nat) (st : TraceState)
    (ds : List Decision) : TraceState :=
  ds.foldl (record H maxBytes) st

/-- A fresh `DecisionTrace` over a path with no existing files. -/
def freshTrace : TraceState := ⟨[], "", fun _ => none⟩

/-- An integrity finding of `verify_integrity`, carrying the 1-based line
number the error message names. -/
inductive VerifyError where
  | prevHashMismatch (line : Nat) (expected got : String)
  | hashMismatch (line : Nat) (stored recomputed : String)
  deriving DecidableEq, Repr

/-- The verification loop of `DecisionTrace.verify_integrity`: check each
entry's `prev_hash` against the running expected value, recompute the hash
over the entry without its `hash` field, and continue with the stored hash
as the new expected value.  `lineNo` is the 1-based line counter. -/
def verifyFrom (H : String → String) (prev : String) (lineNo : Nat) :
    List StoredEntry → List VerifyError
  | [] => []
  | x :: rest =>
    (if x.entry.prev_hash = prev then []
     else [.prevHashMismatch lineNo prev x.entry.prev_hash])
      ++ (if x.hash = computeHash H x.entry.prev_hash x.entry then []
          else [.hashMismatch lineNo x.hash (computeHash H x.entry.prev_hash x.entry)])
      ++ verifyFrom H x.hash (lineNo + 1) rest

/-- `DecisionTrace.verify_integrity(path)`: `(valid, errors)` with
`valid = (len(errors) == 0)`. -/
def verifyIntegrity (H : String → String) (file : List StoredEntry) :
    Bool × List VerifyError :=
  let errs := verifyFrom H "" 1 file
  (errs.isEmpty, errs)

/-- The file content is a well-formed hash chain starting from `prev`:
every entry stores `prev` as its `prev_hash`, stores the hash recomputed
from it, and hands its own hash to the next entry. -/
def chainOK (H : String → String) : String → List StoredEntry → Prop
  | _, [] => True
  | prev, x :: rest =>
    x.entry.prev_hash = prev ∧ x.hash = computeHash H prev x.entry ∧ chainOK H x.hash rest

/-- The hash of the last entry of `l`, or `prev` when `l` is empty. -/
def lastHashOf (prev : String) (l : List StoredEntry) : String :=
  l.foldl (fun _ x => x.hash) prev

/-- Invariant tying the in-memory `_last_hash` to the active file: the file
is a chain from the empty hash and `_last_hash` is its tail hash. -/
def GoodState (H : String → String) (st : TraceState) : Prop :=
  chainOK H "" st.active ∧ st.lastHash = lastHashOf "" st.active

theorem lastHashOf_append (prev : String) (l : List StoredEntry) (x : StoredEntry) :
    lastHashOf prev (l ++ [x]) = x.hash := by
  simp [lastHashOf, List.foldl_append]

theorem lastHashOf_cons (prev : String) (x : StoredEntry) (l : List StoredEntry) :
    lastHashOf prev (x :: l) = lastHashOf x.hash l := rfl

theorem chainOK_append (H : String → String) (prev : String) (l : List StoredEntry)
    (d : Decision) (hc : chainOK H prev l) :
    chainOK H prev (l ++ [⟨⟨d, lastHashOf prev l⟩,
      computeHash H (lastHashOf prev l) ⟨d, lastHashOf prev l⟩⟩]) := by
  induction l generalizing prev with
  | nil => exact ⟨rfl, rfl, trivial⟩
  | cons x rest ih =>
    obtain ⟨h1, h2, h3⟩ := hc
    exact ⟨h1, h2, by simpa [lastHashOf_cons] using ih x.hash h3⟩

theorem rotate_good (H : String → String) (st : TraceState) :
    GoodState H (rotate st) :=
  ⟨trivial, rfl⟩

theorem maybeRotate_good (H : String → String) (mb : Nat) (st : TraceState)
    (hg : GoodState H st) : GoodState H (maybeRotate mb st) := by
  unfold maybeRotate
  split
  · exact hg
  · exact rotate_good H st

theorem record_good_of_rotated (H : String → String) (mb : Nat) (st : TraceState)
    (d : Decision) (hg : GoodState H (maybeRotate mb st)) :
    GoodState H (record H mb st d) := by
  obtain ⟨hc, hl⟩ := hg
  unfold record
  refine ⟨?_, ?_⟩
  · simpa [hl] using chainOK_append H "" (maybeRotate mb st).active d hc
  · simp [lastHashOf_append, hl]

theorem record_good (H : String → String) (mb : Nat) (st : TraceState) (d : Decision)
    (hg : GoodState H st) : GoodState H (record H mb st d) :=
  record_good_of_rotated H mb st d (maybeRotate_good H mb st hg)

theorem recordAll_good (H : String → String) (mb : Nat) (st : TraceState)
    (ds : List Decision) (hg : GoodState H st) :
    GoodState H (recordAll H mb st ds) := by
  induction ds generalizing st with
  | nil => exact hg
  | cons d rest ih => exact ih (record H mb st d) (record_good H mb st d hg)

theorem freshTrace_good (H : String → String) : GoodState H freshTrace :=
  ⟨trivial, rfl⟩

theorem verifyFrom_eq_nil (H : String → String) (prev : String) (n : Nat)
    (l : List StoredEntry) (hc : chainOK H prev l) : verifyFrom H prev n l = [] := by
  induction l generalizing prev n with
  | nil => rfl
  | cons x rest ih =>
    obtain ⟨h1, h2, h3⟩ := hc
    simp [verifyFrom, h1, ← h2, ih x.hash (n + 1) h3]

theorem verifyIntegrity_of_chainOK (H : String → String) (l : List StoredEntry)
    (hc : chainOK H "" l) : verifyIntegrity H l = (true, []) := by
  simp [verifyIntegrity, verifyFrom_eq_nil H "" 1 l hc]

theorem chainOK_head (H : String → String) (prev : String) (l : List StoredEntry)
    (hc : chainOK H prev l) (h0 : 0 < l.length) :
    (l.get ⟨0, h0⟩).entry.prev_hash = prev := by
  match l, hc with
  | x :: rest, ⟨h1, _, _⟩ => exact h1

theorem chainOK_link (H : String → String) (prev : String) (l : List StoredEntry)
    (hc : chainOK H prev l) (i : Nat) (hs : i + 1 < l.length) :
    (l.get ⟨i + 1, hs⟩).entry.prev_hash = (l.get ⟨i, by omega⟩).hash := by
  induction l generalizing prev i with
  | nil => simp at hs
  | cons x rest ih =>
    obtain ⟨h1, h2, h3⟩ := hc
    match i with
    | 0 =>
      match rest, h3, hs with
      | y :: rest2, ⟨hy1, _, _⟩, _ => simpa using hy1
    | i + 1 =>
      simpa using ih x.hash h3 i (by simpa using hs)

theorem chainOK_selfHash (H : String → String) (prev : String) (l : List StoredEntry)
    (hc : chainOK H prev l) (i : Nat) (hi : i < l.length) :
    (l.get ⟨i, hi⟩).hash =
      computeHash H (l.get ⟨i, hi⟩).entry.prev_hash (l.get ⟨i, hi⟩).entry := by
  induction l generalizing prev i with
  | nil => simp at hi
  | cons x rest ih =>
    obtain ⟨h1, h2, h3⟩ := hc
    match i with
    | 0 => simpa [h1] using h2
    | i + 1 => simpa using ih x.hash h3 i (by simpa using hi)

/-- A single-field modification of a stored trace entry, made after it was
written and without recomputing its hash: exactly one of the thirteen
serialized fields (the eleven decision fields, `prev_hash`, `hash`) takes a
different value and every other field is untouched. -/
inductive FieldTamper (x : StoredEntry) : StoredEntry → Prop where
  | prompt_id (v : String) (hv : v ≠ x.entry.decision.prompt_id) :
      FieldTamper x ⟨⟨{ x.entry.decision with prompt_id := v }, x.entry.prev_hash⟩, x.hash⟩
  | session_id (v : String) (hv : v ≠ x.entry.decision.session_id) :
      FieldTamper x ⟨⟨{ x.entry.decision with session_id := v }, x.entry.prev_hash⟩, x.hash⟩
  | policy_hash (v : String) (hv : v ≠ x.entry.decision.policy_hash) :
      FieldTamper x ⟨⟨{ x.entry.decision with policy_hash := v }, x.entry.prev_hash⟩, x.hash⟩
  | matched_rule_id (v : String) (hv : v ≠ x.entry.decision.matched_rule_id) :
      FieldTamper x ⟨⟨{ x.entry.decision with matched_rule_id := v }, x.entry.prev_hash⟩, x.hash⟩
  | action_type (v : String) (hv : v ≠ x.entry.decision.action_type) :
      FieldTamper x ⟨⟨{ x.entry.decision with action_type := v }, x.entry.prev_hash⟩, x.hash⟩
  | action_value (v : String) (hv : v ≠ x.entry.decision.action_value) :
      FieldTamper x ⟨⟨{ x.entry.decision with action_value := v }, x.entry.prev_hash⟩, x.hash⟩
  | explanation (v : String) (hv : v ≠ x.entry.decision.explanation) :
      FieldTamper x ⟨⟨{ x.entry.decision with explanation := v }, x.entry.prev_hash⟩, x.hash⟩
  | confidence (v : String) (hv : v ≠ x.entry.decision.confidence) :
      FieldTamper x ⟨⟨{ x.entry.decision with confidence := v }, x.entry.prev_hash⟩, x.hash⟩
  | prompt_type (v : String) (hv : v ≠ x.entry.decision.prompt_type) :
      FieldTamper x ⟨⟨{ x.entry.decision with prompt_type := v }, x.entry.prev_hash⟩, x.hash⟩
  | autonomy_mode (v : String) (hv : v ≠ x.entry.decision.autonomy_mode) :
      FieldTamper x ⟨⟨{ x.entry.decision with autonomy_mode := v }, x.entry.prev_hash⟩, x.hash⟩
  | idempotency_key (v : String) (hv : v ≠ x.entry.decision.idempotency_key) :
      FieldTamper x ⟨⟨{ x.entry.decision with idempotency_key := v }, x.entry.prev_hash⟩, x.hash⟩
  | prev_hash (v : String) (hv : v ≠ x.entry.prev_hash) :
      FieldTamper x ⟨⟨x.entry.decision, v⟩, x.hash⟩
  | hash (v : String) (hv : v ≠ x.hash) :
      FieldTamper x ⟨x.entry, v⟩

/-- Changing a single field of a correctly hashed entry always breaks the
self-hash check of `verify_integrity`: the stored hash no longer equals the
hash recomputed over the (modified) entry.  `Function.Injective H` is the
collision-freedom assumption on SHA-256. -/
theorem tamper_breaks_hash (H : String → String) (hH : Function.Injective H)
    (x x' : StoredEntry)
    (hx : x.hash = computeHash H x.entry.prev_hash x.entry)
    (ht : FieldTamper x x') :
    x'.hash ≠ computeHash H x'.entry.prev_hash x'.entry := by
  cases ht
  case hash v hv =>
    intro hcon
    exact hv (hcon.trans hx.symm)
  all_goals
    rename_i v hv
    intro hcon
    rw [hx] at hcon
    have h' := hH hcon
    have hd := congrArg String.data h'
    simp only [hashInput, canonJson, String.data_append, List.append_assoc] at hd
    repeat replace hd := List.append_cancel_left hd
    have hlen := congrArg List.length hd
    simp only [List.length_append] at hlen
    exact hv (String.ext ((List.append_inj hd (by omega)).1)).symm

theorem verifyFrom_hashMismatch_mem (H : String → String) (l : List StoredEntry)
    (prev : String) (n i : Nat) (hi : i < l.length)
    (hbad : (l.get ⟨i, hi⟩).hash ≠
      computeHash H (l.get ⟨i, hi⟩).entry.prev_hash (l.get ⟨i, hi⟩).entry) :
    VerifyError.hashMismatch (n + i) (l.get ⟨i, hi⟩).hash
        (computeHash H (l.get ⟨i, hi⟩).entry.prev_hash (l.get ⟨i, hi⟩).entry)
      ∈ verifyFrom H prev n l := by
  induction l generalizing prev n i with
  | nil => simp at hi
  | cons x rest ih =>
    match i with
    | 0 =>
      simp only [List.get] at hbad ⊢
      unfold verifyFrom
      simp [hbad]
    | i + 1 =>
      have hmem := ih x.hash (n + 1) i (by simpa using hi) (by simpa using hbad)
      unfold verifyFrom
      have harith : n + 1 + i = n + (i + 1) := by omega
      rw [harith] at hmem
      simp only [List.get_cons_succ]
      exact List.mem_append_right _ hmem

/-- C1: for any sequence of decisions recorded with `DecisionTrace.record`
into a fresh trace file, the file's first entry has an empty `prev_hash` and
every later entry's `prev_hash` equals the previous entry's `hash`; and if
any single field of any entry is modified afterwards without recomputing its
hash, `verify_integrity` returns invalid together with a hash-mismatch error
naming that entry's 1-based line number, even though every later entry is
untouched. -/
theorem C1_hash_chain_tamper_evident (H : String → String)
    (hH : Function.Injective H) (mb : Nat) (ds : List Decision)
    (l : List StoredEntry) (hl : l = (recordAll H mb freshTrace ds).active) :
    (∀ h0 : 0 < l.length, (l.get ⟨0, h0⟩).entry.prev_hash = "") ∧
    (∀ i (hs : i + 1 < l.length),
      (l.get ⟨i + 1, hs⟩).entry.prev_hash = (l.get ⟨i, by omega⟩).hash) ∧
    (∀ k (hk : k < l.length) (x' : StoredEntry),
      FieldTamper (l.get ⟨k, hk⟩) x' →
      (verifyIntegrity H (l.set k x')).1 = false ∧
      ∃ s r, VerifyError.hashMismatch (k + 1) s r ∈ (verifyIntegrity H (l.set k x')).2) := by
  obtain ⟨hc, -⟩ := recordAll_good H mb freshTrace ds (freshTrace_good H)
  rw [← hl] at hc
  refine ⟨fun h0 => chainOK_head H "" l hc h0, fun i hs => chainOK_link H "" l hc i hs, ?_⟩
  intro k hk x' ht
  have hself := chainOK_selfHash H "" l hc k hk
  have hbad := tamper_breaks_hash H hH _ x' hself ht
  have hk' : k < (l.set k x').length := by simpa using hk
  have hget : (l.set k x').get ⟨k, hk'⟩ = x' := by
    simp [List.get_eq_getElem, List.getElem_set]
  have hmem := verifyFrom_hashMismatch_mem H (l.set k x') "" 1 k hk'
    (by rw [hget]; exact hbad)
  rw [hget] at hmem
  have harith : 1 + k = k + 1 := by omega
  rw [harith] at hmem
  have hne : verifyFrom H "" 1 (l.set k x') ≠ [] := by
    intro hnil
    rw [hnil] at hmem
    simp at hmem
  exact ⟨by simpa [verifyIntegrity] using hne, ⟨_, _, hmem⟩⟩

/-- A concrete sample decision for the executable witnesses. -/
def sampleDecision (pid key : String) : Decision :=
  { prompt_id := pid, session_id := "s-001", policy_hash := "abc123",
    matched_rule_id := "rule-1", action_type := "auto_reply", action_value := "y",
    explanation := "test decision", confidence := "high", prompt_type := "yes_no",
    autonomy_mode := "full", idempotency_key := key }

/-- Active file after recording two decisions into a fresh trace, with the
hex digest abstracted as the identity function. -/
def traceC1 : List StoredEntry :=
  (recordAll id (10 * 1024 * 1024) freshTrace
    [sampleDecision "p-001" "k1", sampleDecision "p-002" "k2"]).active

/-- The first recorded entry of `traceC1`. -/
def x0C1 : StoredEntry := traceC1.getD 0 default

/-- `x0C1` with its `explanation` field overwritten and its hash left alone. -/
def tamperedC1 : StoredEntry :=
  ⟨⟨{ x0C1.entry.decision with explanation := "TAMPERED" }, x0C1.entry.prev_hash⟩,
    x0C1.hash⟩

set_option maxRecDepth 100000 in
/-- Concrete instance of C1: two recorded decisions, first entry tampered. -/
theorem C1_hash_chain_tamper_evident_witness :
    Function.Injective (id : String → String) ∧
    (∀ h0 : 0 < traceC1.length, (traceC1.get ⟨0, h0⟩).entry.prev_hash = "") ∧
    (∀ hs : 1 < traceC1.length,
      (traceC1.get ⟨1, hs⟩).entry.prev_hash = (traceC1.get ⟨0, by omega⟩).hash) ∧
    (verifyIntegrity id (traceC1.set 0 tamperedC1)).1 = false ∧
    (∃ s r, VerifyError.hashMismatch 1 s r
      ∈ (verifyIntegrity id (traceC1.set 0 tamperedC1)).2) := by
  have h := C1_hash_chain_tamper_evident id (fun a b hab => hab) (10 * 1024 * 1024)
    [sampleDecision "p-001" "k1", sampleDecision "p-002" "k2"] traceC1 rfl
  obtain ⟨h1, h2, h3⟩ := h
  have hk : 0 < traceC1.length := by decide
  have hx0 : traceC1.get ⟨0, hk⟩ = x0C1 := rfl
  have hft : FieldTamper (traceC1.get ⟨0, hk⟩) tamperedC1 := by
    rw [hx0]
    exact FieldTamper.explanation "TAMPERED" (by decide)
  obtain ⟨hv, hs, hr⟩ := h3 0 hk tamperedC1 hft
  exact ⟨fun a b hab => hab, h1, fun hs1 => h2 0 hs1, hv, hs, hr⟩

/-- The archive slots hold files exactly at indices `1 .. m` (normal
operating shape maintained by the rotation scheme itself). -/
def ArchContiguous (arch : Nat → Option (List StoredEntry)) (m : Nat) : Prop :=
  m ≤ MAX_ARCHIVES ∧
    ∀ j, (1 ≤ j → j ≤ m → (arch j).isSome = true) ∧ (¬(1 ≤ j ∧ j ≤ m) → arch j = none)

theorem renameArchive_outside (a : Nat → Option (List StoredEntry)) (i j : Nat)
    (hji : j ≠ i) (hji1 : j ≠ i + 1) : renameArchive a i j = a j := by
  unfold renameArchive
  cases a i <;> simp [hji, hji1]

theorem shiftDown_spec (arch : Nat → Option (List StoredEntry)) (m : Nat)
    (hc : ArchContiguous arch m) :
    (∀ N, 1 ≤ N → N < MAX_ARCHIVES →
      shiftDown arch (MAX_ARCHIVES - 1) (N + 1) = arch N) ∧
    (∀ j, ¬(1 ≤ j ∧ j ≤ MAX_ARCHIVES) → shiftDown arch (MAX_ARCHIVES - 1) j = arch j) := by
  obtain ⟨hm3, hcc⟩ := hc
  have h3of2 : arch 2 = none → arch 3 = none := by
    intro hn
    have hm1 : ¬ 2 ≤ m := by
      intro hm
      have := (hcc 2).1 (by omega) hm
      rw [hn] at this
      simp at this
    exact (hcc 3).2 (by omega)
  constructor
  · intro N hN1 hNlt
    have hN : N = 1 ∨ N = 2 := by
      have : MAX_ARCHIVES = 3 := rfl
      omega
    show (renameArchive (renameArchive arch 2) 1) (N + 1) = arch N
    rcases hN with rfl | rfl
    · rcases h2 : arch 2 with _ | f2 <;> rcases h1 : arch 1 with _ | f1 <;>
        simp [renameArchive, h1, h2]
    · rcases h2 : arch 2 with _ | f2
      · rcases h1 : arch 1 with _ | f1 <;>
          simp [renameArchive, h1, h2, h3of2 h2]
      · rcases h1 : arch 1 with _ | f1 <;>
          simp [renameArchive, h1, h2]
  · intro j hj
    have hMA : MAX_ARCHIVES = 3 := rfl
    rw [hMA] at hj
    show (renameArchive (renameArchive arch 2) 1) j = arch j
    rw [renameArchive_outside _ 1 j (by omega) (by omega),
      renameArchive_outside _ 2 j (by omega) (by omega)]

/-- C7: when `record` finds the active file at or beyond `max_bytes` it
rotates before appending — archives shift `.jsonl.N` to `.jsonl.(N+1)` for
`N` from `MAX_ARCHIVES - 1` down to `1`, the old active file becomes
`.jsonl.1`, at most `MAX_ARCHIVES` archives remain (the oldest is
discarded), the in-memory last hash is reset to the empty string, the next
entry starts a new chain with `prev_hash = ""`, and the post-rotation
active file passes `verify_integrity` on its own after any number of
further writes. -/
theorem C7_rotation_resets_chain (H : String → String) (mb : Nat)
    (st : TraceState) (d : Decision) (m : Nat)
    (hcont : ArchContiguous st.archives m)
    (hsize : mb ≤ fileSize st.active) :
    ((maybeRotate mb st).lastHash = "" ∧ (maybeRotate mb st).active = []) ∧
    (record H mb st d).archives 1 = some st.active ∧
    (∀ N, 1 ≤ N → N < MAX_ARCHIVES →
      (record H mb st d).archives (N + 1) = st.archives N) ∧
    (∀ j, j = 0 ∨ MAX_ARCHIVES < j → (record H mb st d).archives j = none) ∧
    (record H mb st d).active = [⟨⟨d, ""⟩, computeHash H "" ⟨d, ""⟩⟩] ∧
    (∀ ds', (verifyIntegrity H
      (recordAll H mb (record H mb st d) ds').active).1 = true) := by
  have hrot : maybeRotate mb st = rotate st := by
    unfold maybeRotate
    rw [if_neg]
    omega
  obtain ⟨hshift, houtside⟩ := shiftDown_spec st.archives m hcont
  have harch : (record H mb st d).archives = (rotate st).archives := by
    rw [record, hrot]
  refine ⟨by rw [hrot]; exact ⟨rfl, rfl⟩, ?_, ?_, ?_, ?_, ?_⟩
  · rw [harch]
    show (fun j => if j = 1 then some st.active else shiftDown st.archives 2 j) 1
      = some st.active
    simp
  · intro N hN1 hNlt
    rw [harch]
    show (fun j => if j = 1 then some st.active else shiftDown st.archives 2 j) (N + 1)
      = st.archives N
    have : ¬ (N + 1 = 1) := by omega
    simpa [this] using hshift N hN1 hNlt
  · intro j hj
    rw [harch]
    show (fun j => if j = 1 then some st.active else shiftDown st.archives 2 j) j = none
    have hMA : MAX_ARCHIVES = 3 := rfl
    rw [hMA] at hj
    have hj1 : ¬ (j = 1) := by omega
    have hm : m ≤ 3 := by
      have := hcont.1
      rw [hMA] at this
      exact this
    have hout : shiftDown st.archives 2 j = st.archives j :=
      houtside j (by rw [hMA]; omega)
    have hnone : st.archives j = none := (hcont.2 j).2 (by omega)
    simp [hj1, hout, hnone]
  · rw [record, hrot]
    show ((rotate st).active ++ [_]) = _
    simp [rotate]
  · intro ds'
    have hg : GoodState H (record H mb st d) :=
      record_good_of_rotated H mb st d (by rw [hrot]; exact rotate_good H st)
    obtain ⟨hc, -⟩ := recordAll_good H mb (record H mb st d) ds' hg
    rw [verifyIntegrity_of_chainOK H _ hc]

/-- Trace state holding one recorded entry, used to force a rotation. -/
def stC7 : TraceState :=
  recordAll id (10 * 1024 * 1024) freshTrace [sampleDecision "p-before" "k0"]

/-- First decision recorded after the forced rotation. -/
def dC7 : Decision := sampleDecision "p-after-1" "kr1"

/-- Second decision recorded after the forced rotation. -/
def dC7b : Decision := sampleDecision "p-after-2" "kr2"

set_option maxRecDepth 100000 in
/-- Concrete instance of C7: rotation forced with `max_bytes = 1`. -/
theorem C7_rotation_resets_chain_witness :
    ArchContiguous stC7.archives 0 ∧
    1 ≤ fileSize stC7.active ∧
    (maybeRotate 1 stC7).lastHash = "" ∧
    (record id 1 stC7 dC7).archives 1 = some stC7.active ∧
    (record id 1 stC7 dC7).archives 2 = stC7.archives 1 ∧
    (record id 1 stC7 dC7).archives 4 = none ∧
    (record id 1 stC7 dC7).active = [⟨⟨dC7, ""⟩, computeHash id "" ⟨dC7, ""⟩⟩] ∧
    (verifyIntegrity id
      (recordAll id 1 (record id 1 stC7 dC7) [dC7b]).active).1 = true := by
  have hcont : ArchContiguous stC7.archives 0 :=
    ⟨Nat.zero_le _, fun j => ⟨fun h1 h2 => absurd (le_trans h1 h2) (by omega),
      fun _ => rfl⟩⟩
  have hsize : 1 ≤ fileSize stC7.active := by decide
  have h := C7_rotation_resets_chain id 1 stC7 dC7 0 hcont hsize
  obtain ⟨⟨hlast, -⟩, h2, h3, h4, h5, h6⟩ := h
  exact ⟨hcont, hsize, hlast, h2, h3 1 (le_refl 1) (by decide),
    h4 4 (Or.inr (by decide)), h5, h6 [dC7b]⟩

/-- The columns `get_trust` selects from the `workspace_trust` table:
`trusted` (an SQLite integer read as a boolean) and `trust_expires_at`
(nullable text; an absent or empty value is modelled as `none`, matching
the falsy test `if expires_at:`). -/
structure TrustRow where
  trusted : Bool
  trust_expires_at : Option String
  deriving DecidableEq, Repr

/-- `get_trust(path, conn)`: false when no record exists for the path hash,
false when `trusted` is 0, false when `trust_expires_at` parses to an
instant in the past; an unparseable expiry (`ValueError`/`TypeError`) is
swallowed (`except: pass`) and the record counts as trusted.  `parseIso`
abstracts `datetime.fromisoformat` plus the UTC coercion, returning the
instant as an integer timestamp or `none` on a parse failure; `now` is the
current UTC instant. -/
def get_trust (parseIso : String → Option Int) (now : Int)
    (row? : Option TrustRow) : Bool :=
  match row? with
  | none => false
  | some row =>
    if !row.trusted then false
    else
      match row.trust_expires_at with
      | none => true
      | some s =>
        match parseIso s with
        | some expiry => if now > expiry then false else true
        | none => true

/-- The columns `get_workspace_context` selects for a workspace record. -/
structure WorkspaceRow where
  id : String
  path : String
  trusted : Bool
  trust_expires_at : Option String
  profile_name : Option String
  autonomy_default : Option String
  model_tier : Option String
  tool_allowlist_profile : Option String
  deriving DecidableEq, Repr

/-- The context payload `get_workspace_context` hands to the policy
evaluator. -/
structure WorkspaceContext where
  workspace_id : Option String
  canonical_path : String
  trust_state : String
  trust_expires_at : Option String
  profile_name : Option String
  autonomy_default : Option String
  model_tier : Option String
  tool_allowlist_profile : Option String
  deriving DecidableEq, Repr

/-- `get_workspace_context(path, conn)`: the read-only payload for policy
evaluation, with the trust state computed after the TTL check (same
parse-failure handling as `get_trust`).  `cpath` stands for the already
resolved `canonical_path(path)`. -/
def get_workspace_context (parseIso : String → Option Int) (now : Int)
    (cpath : String) (row? : Option WorkspaceRow) : WorkspaceContext :=
  match row? with
  | none =>
    { workspace_id := none, canonical_path := cpath, trust_state := "untrusted",
      trust_expires_at := none, profile_name := none, autonomy_default := none,
      model_tier := none, tool_allowlist_profile := none }
  | some row =>
    let trusted :=
      if row.trusted then
        match row.trust_expires_at with
        | none => true
        | some s =>
          match parseIso s with
          | some expiry => if now > expiry then false else true
          | none => true
      else false
    { workspace_id := some row.id, canonical_path := cpath,
      trust_state := if trusted then "trusted" else "untrusted",
      trust_expires_at := row.trust_expires_at,
      profile_name := row.profile_name, autonomy_default := row.autonomy_default,
      model_tier := row.model_tier,
      tool_allowlist_profile := row.tool_allowlist_profile }

/-- C6: `get_trust` returns false when no record exists, false when the
record has `trusted = 0`, and false whenever a set `trust_expires_at` lies
in the past at the moment of the call — so once a grant has expired every
subsequent call (at the same or any later clock reading) returns false,
not just the first one. -/
theorem C6_get_trust_ttl (parseIso : String → Option Int) (now : Int)
    (row : TrustRow) (s : String) (expiry : Int) :
    get_trust parseIso now none = false ∧
    (row.trusted = false → get_trust parseIso now (some row) = false) ∧
    (row.trust_expires_at = some s → parseIso s = some expiry → expiry < now →
      ∀ now', now ≤ now' → get_trust parseIso now' (some row) = false) := by
  refine ⟨rfl, ?_, ?_⟩
  · intro hf
    simp [get_trust, hf]
  · intro hs hp hlt now' hle
    cases htr : row.trusted with
    | false => simp [get_trust, htr]
    | true =>
      have : expiry < now' := by omega
      simp [get_trust, htr, hs, hp, this]

/-- A concrete stand-in for `datetime.fromisoformat`, mapping one
well-formed ISO timestamp to its epoch instant and refusing anything
else. -/
def parseIsoSample (s : String) : Option Int :=
  if s = "2020-01-01T00:00:05+00:00" then some 5 else none

/-- Concrete instance of C6: a record whose expiry lies in the past. -/
theorem C6_get_trust_ttl_witness :
    (⟨true, some "2020-01-01T00:00:05+00:00"⟩ : TrustRow).trust_expires_at
      = some "2020-01-01T00:00:05+00:00" ∧
    parseIsoSample "2020-01-01T00:00:05+00:00" = some 5 ∧ (5 : Int) < 10 ∧
    (10 : Int) ≤ 12 ∧
    get_trust parseIsoSample 12 (some ⟨true, some "2020-01-01T00:00:05+00:00"⟩) = false ∧
    get_trust parseIsoSample 10 none = false := by
  have h := C6_get_trust_ttl parseIsoSample 10
    ⟨true, some "2020-01-01T00:00:05+00:00"⟩ "2020-01-01T00:00:05+00:00" 5
  exact ⟨rfl, by decide, by decide, by decide,
    h.2.2 rfl (by decide) (by decide) 12 (by decide), h.1⟩

/-- C10: a trust record with `trusted = 1` and an unparseable
`trust_expires_at` is reported as trusted by both `get_trust` and
`get_workspace_context`: the parse error is swallowed, the TTL check is
skipped, and nothing is raised — TTL enforcement fails open on malformed
expiry data. -/
theorem C10_unparseable_expiry_fails_open (parseIso : String → Option Int)
    (now : Int) (cpath : String) (row : WorkspaceRow) (s : String)
    (htr : row.trusted = true) (hs : row.trust_expires_at = some s)
    (hp : parseIso s = none) :
    get_trust parseIso now (some ⟨row.trusted, row.trust_expires_at⟩) = true ∧
    (get_workspace_context parseIso now cpath (some row)).trust_state = "trusted" := by
  constructor
  · simp [get_trust, htr, hs, hp]
  · simp [get_workspace_context, htr, hs, hp]

/-- A workspace row with a malformed expiry, for the C10 witness. -/
def rowC10 : WorkspaceRow :=
  { id := "ws-1", path := "/work/proj", trusted := true,
    trust_expires_at := some "not-a-timestamp", profile_name := none,
    autonomy_default := none, model_tier := none, tool_allowlist_profile := none }

/-- Concrete instance of C10: `"not-a-timestamp"` does not parse, and the
workspace is still reported as trusted. -/
theorem C10_unparseable_expiry_fails_open_witness :
    rowC10.trusted = true ∧
    rowC10.trust_expires_at = some "not-a-timestamp" ∧
    parseIsoSample "not-a-timestamp" = none ∧
    get_trust parseIsoSample 99 (some ⟨rowC10.trusted, rowC10.trust_expires_at⟩) = true ∧
    (get_workspace_context parseIsoSample 99 "/work/proj" (some rowC10)).trust_state
      = "trusted" := by
  have h := C10_unparseable_expiry_fails_open parseIsoSample 99 "/work/proj" rowC10
    "not-a-timestamp" rfl rfl (by decide)
  exact ⟨rfl, rfl, by decide, h.1, h.2⟩

/-- `_suggest_profile(risk_tags)`: advisory posture-profile suggestion. -/
def suggestProfile (risk_tags : List String) : Option String :=
  if risk_tags.contains "secrets_present" && risk_tags.contains "deployment" then
    some "read_only_analysis"
  else if risk_tags.contains "deployment" || risk_tags.contains "iac" then
    some "plan_only"
  else if risk_tags.contains "secrets_present" then
    some "safe_refactor"
  else none

/-- The suggestion precedence exactly as the claim words it: the
`plan_only` branch requires `secrets_present` to be absent, the
`safe_refactor` branch requires `secrets_present` to be alone among the
governed tags, and anything else yields no suggestion. -/
def suggestProfileClaimC9 (risk_tags : List String) : Option String :=
  if risk_tags.contains "secrets_present" && risk_tags.contains "deployment" then
    some "read_only_analysis"
  else if (risk_tags.contains "deployment" || risk_tags.contains "iac")
      && !risk_tags.contains "secrets_present" then
    some "plan_only"
  else if risk_tags.contains "secrets_present" && !risk_tags.contains "deployment"
      && !risk_tags.contains "iac" then
    some "safe_refactor"
  else none

/-- C9 fails on the tag set `{iac, secrets_present}` (reachable, e.g. from
a listing containing `terraform/id_rsa`): the code suggests `plan_only`
because its second branch does not exclude `secrets_present`, while the
claim's reading yields no suggestion. -/
theorem C9_counterexample :
    suggestProfile ["iac", "secrets_present"] = some "plan_only" ∧
    suggestProfileClaimC9 ["iac", "secrets_present"] = none := by
  decide

/-- The precedence as the code implements it, in the amended wording:
`secrets_present` together with `deployment` suggests `read_only_analysis`;
otherwise `deployment` or `iac` — even alongside `secrets_present` —
suggests `plan_only`; otherwise `secrets_present` suggests `safe_refactor`;
otherwise nothing. -/
def suggestProfileAmendedC9 (risk_tags : List String) : Option String :=
  if "secrets_present" ∈ risk_tags ∧ "deployment" ∈ risk_tags then
    some "read_only_analysis"
  else if "deployment" ∈ risk_tags ∨ "iac" ∈ risk_tags then
    some "plan_only"
  else if "secrets_present" ∈ risk_tags then
    some "safe_refactor"
  else none

/-- C9 (amended): `_suggest_profile` follows the amended precedence for
every tag set; in particular `{iac, secrets_present}` suggests
`plan_only`. -/
theorem C9_suggest_profile_precedence (risk_tags : List String) :
    suggestProfile risk_tags = suggestProfileAmendedC9 risk_tags ∧
    suggestProfile ["iac", "secrets_present"] = some "plan_only" := by
  refine ⟨?_, by decide⟩
  unfold suggestProfile suggestProfileAmendedC9
  by_cases hs : "secrets_present" ∈ risk_tags <;>
    by_cases hd : "deployment" ∈ risk_tags <;>
    by_cases hi : "iac" ∈ risk_tags <;>
    simp [List.elem_iff, hs, hd, hi]

/-- `SCANNER_RULESET_VERSION` — bumped when the rule tables change. -/
def SCANNER_RULESET_VERSION : String := "1.0.0"

/-- The `_RISK_PATTERNS` tables: substring patterns per risk tag, in dict
order (`iac`, `secrets_present`, `deployment`). -/
def riskPatterns : List (String × List String) :=
  [("iac",
    ["terraform", "Terraform", ".tf", "ansible", "playbook", "docker-compose",
     "Dockerfile", "k8s", "kubernetes", "helm", "cloudformation", ".cdk.", "pulumi"]),
   ("secrets_present",
    [".env", ".env.local", ".env.production", "credentials", "secrets", ".pem",
     ".key", ".p12", ".pfx", "service-account", "serviceaccount", "id_rsa",
     "id_ed25519"]),
   ("deployment",
    ["deploy", "Deploy", "ci/cd", ".github/workflows", ".gitlab-ci", "Jenkinsfile",
     "Procfile", "serverless", "fly.toml", "railway.json", "vercel.json",
     "netlify.toml"])]

/-- Python's `needle in haystack` substring test. -/
def strContains (hay needle : String) : Bool :=
  decide (needle.data <:+: hay.data)

/-- `str.lower()` (character-wise; the patterns and listings are ASCII). -/
def lowerStr (s : String) : String := ⟨s.data.map Char.toLower⟩

/-- The classification loop of `scan_workspace`: lower-case the listing,
join it with newlines, and append each tag whose pattern table has a
match. -/
def classifyTags (file_listing : List String) : List String :=
  let joined := String.intercalate "\n" (file_listing.map lowerStr)
  let tags := riskPatterns.foldl
    (fun acc tp =>
      if tp.2.any (fun p => strContains joined (lowerStr p)) && !(acc.contains tp.1)
      then acc ++ [tp.1] else acc) []
  if tags.isEmpty then ["unknown"] else tags

/-- The `matched_patterns` portion of `raw_results`. -/
def matchedPatterns (file_listing : List String) (tags : List String) :
    List (String × List String) :=
  let joined := String.intercalate "\n" (file_listing.map lowerStr)
  riskPatterns.filterMap (fun tp =>
    if tags.contains tp.1
    then some (tp.1, tp.2.filter (fun p => strContains joined (lowerStr p)))
    else none)

/-- `_compute_scan_inputs_hash(file_listing, ruleset_version)`: the
`json.dumps` payload over the sorted listing plus the ruleset version. -/
def scanPayload (files : List String) (version : String) : String :=
  "\x7b\"files\": ["
    ++ String.intercalate ", " (files.map (fun f => "\"" ++ f ++ "\""))
    ++ "], \"ruleset_version\": \"" ++ version ++ "\"\x7d"

/-- The scan-inputs hash: SHA-256 hex digest of the payload, truncated to
16 characters (`hexdigest()[:16]`), with SHA-256 abstracted as `H`. -/
def computeScanInputsHash (H : String → String) (file_listing : List String)
    (version : String) : String :=
  (H (scanPayload (file_listing.mergeSort (· ≤ ·)) version)).take 16

/-- A row of `workspace_scan_artifacts`.  `raw_matched` carries the
`matched_patterns` part of `raw_results`; the other `raw_results` entries
duplicate `file_count` and `risk_tags`. -/
structure ScanArtifact where
  workspace_id : String
  ruleset_version : String
  inputs_hash : String
  risk_tags : List String
  file_count : Nat
  suggested_profile : Option String
  raw_matched : List (String × List String)
  deriving DecidableEq, Repr

/-- The `WHERE workspace_id = ? AND inputs_hash = ?` test. -/
def artifactKeyIs (wid ih : String) (a : ScanArtifact) : Bool :=
  a.workspace_id == wid && a.inputs_hash == ih

/-- The artifact `scan_workspace` builds when no cached row exists. -/
def mkScanArtifact (H : String → String) (file_listing : List String)
    (wid : String) : ScanArtifact :=
  let risk_tags := classifyTags file_listing
  { workspace_id := wid, ruleset_version := SCANNER_RULESET_VERSION,
    inputs_hash := computeScanInputsHash H file_listing SCANNER_RULESET_VERSION,
    risk_tags := risk_tags, file_count := file_listing.length,
    suggested_profile := suggestProfile risk_tags,
    raw_matched := matchedPatterns file_listing risk_tags }

/-- `scan_workspace(workspace_path, conn)`, taking the enumerated (bounded)
file listing and the workspace id looked up from `workspace_trust` as
inputs (`workspace_id = ""` when no trust record exists): return the cached
artifact when one exists for `(workspace_id, inputs_hash)`, otherwise
classify and insert, with `ON CONFLICT DO NOTHING` on the unique key. -/
def scan_workspace (H : String → String) (file_listing : List String)
    (workspace_id : String) (db : List ScanArtifact) :
    ScanArtifact × List ScanArtifact :=
  let inputs_hash := computeScanInputsHash H file_listing SCANNER_RULESET_VERSION
  let cached := if workspace_id = "" then none
    else db.find? (artifactKeyIs workspace_id inputs_hash)
  match cached with
  | some a => (a, db)
  | none =>
    let artifact := mkScanArtifact H file_listing workspace_id
    if workspace_id = "" then (artifact, db)
    else if db.any (artifactKeyIs workspace_id inputs_hash) then (artifact, db)
    else (artifact, db ++ [artifact])

theorem scan_no_cache (H : String → String) (l : List String) (wid : String)
    (db : List ScanArtifact) (hwid : ¬ wid = "")
    (hmiss : ∀ a ∈ db,
      artifactKeyIs wid (computeScanInputsHash H l SCANNER_RULESET_VERSION) a = false) :
    scan_workspace H l wid db = (mkScanArtifact H l wid, db ++ [mkScanArtifact H l wid]) := by
  have hfind : db.find?
      (artifactKeyIs wid (computeScanInputsHash H l SCANNER_RULESET_VERSION)) = none :=
    List.find?_eq_none.mpr (fun a ha => by simp [hmiss a ha])
  have hany : db.any
      (artifactKeyIs wid (computeScanInputsHash H l SCANNER_RULESET_VERSION)) = false := by
    rw [List.any_eq_false]
    intro a ha
    simp [hmiss a ha]
  unfold scan_workspace
  dsimp only
  rw [if_neg hwid, hfind]
  simp only [hany, if_neg hwid]
  rfl

theorem scan_cached (H : String → String) (l : List String) (wid : String)
    (db : List ScanArtifact) (a : ScanArtifact) (hwid : ¬ wid = "")
    (hfind : db.find?
      (artifactKeyIs wid (computeScanInputsHash H l SCANNER_RULESET_VERSION)) = some a) :
    scan_workspace H l wid db = (a, db) := by
  unfold scan_workspace
  dsimp only
  rw [if_neg hwid, hfind]

/-- Sorting is insensitive to the enumeration order of the listing. -/
theorem mergeSort_perm_eq (l l' : List String) (h : l.Perm l') :
    l.mergeSort (· ≤ ·) = l'.mergeSort (· ≤ ·) := by
  apply List.eq_of_perm_of_sorted (r := (· ≤ ·))
  · exact (List.mergeSort_perm l _).trans (h.trans (List.mergeSort_perm l' _).symm)
  · exact List.sorted_mergeSort' (l := l)
  · exact List.sorted_mergeSort' (l := l')

/-- C8: scanning the same listing twice for a workspace with a trust record
is idempotent and deterministic — both calls return the same artifact
(hence the same `inputs_hash` and `risk_tags`), the second call returns the
stored row without inserting, exactly one row exists for the
`(workspace_id, inputs_hash)` pair afterwards, and the `inputs_hash`
depends only on the sorted listing plus the ruleset version, independent of
enumeration order. -/
theorem C8_scan_idempotent (H : String → String) (l : List String) (wid : String)
    (db0 : List ScanArtifact) (hwid : ¬ wid = "")
    (hmiss : ∀ a ∈ db0,
      artifactKeyIs wid (computeScanInputsHash H l SCANNER_RULESET_VERSION) a = false) :
    (scan_workspace H l wid ((scan_workspace H l wid db0).2)).1
        = (scan_workspace H l wid db0).1 ∧
    (scan_workspace H l wid ((scan_workspace H l wid db0).2)).2
        = (scan_workspace H l wid db0).2 ∧
    (scan_workspace H l wid db0).2 = db0 ++ [(scan_workspace H l wid db0).1] ∧
    (((scan_workspace H l wid ((scan_workspace H l wid db0).2)).2).filter
        (artifactKeyIs wid (computeScanInputsHash H l SCANNER_RULESET_VERSION))).length
      = 1 ∧
    (∀ l', l.Perm l' →
      computeScanInputsHash H l' SCANNER_RULESET_VERSION
        = computeScanInputsHash H l SCANNER_RULESET_VERSION) := by
  have h1 := scan_no_cache H l wid db0 hwid hmiss
  have hkey : artifactKeyIs wid (computeScanInputsHash H l SCANNER_RULESET_VERSION)
      (mkScanArtifact H l wid) = true := by
    simp [artifactKeyIs, mkScanArtifact]
  have hfind1 : (db0 ++ [mkScanArtifact H l wid]).find?
      (artifactKeyIs wid (computeScanInputsHash H l SCANNER_RULESET_VERSION))
      = some (mkScanArtifact H l wid) := by
    rw [List.find?_append]
    rw [List.find?_eq_none.mpr (fun a ha => by simp [hmiss a ha])]
    simp [hkey]
  have h2 := scan_cached H l wid (db0 ++ [mkScanArtifact H l wid])
    (mkScanArtifact H l wid) hwid hfind1
  have hfilter0 : db0.filter
      (artifactKeyIs wid (computeScanInputsHash H l SCANNER_RULESET_VERSION)) = [] :=
    List.filter_eq_nil_iff.mpr (fun a ha => by simp [hmiss a ha])
  refine ⟨?_, ?_, ?_, ?_, ?_⟩
  · rw [h1]
    simpa using congrArg Prod.fst h2
  · rw [h1]
    simpa using congrArg Prod.snd h2
  · rw [h1]
  · rw [h1]
    simp only
    rw [congrArg Prod.snd h2]
    simp [List.filter_append, hfilter0, hkey]
  · intro l' hperm
    unfold computeScanInputsHash
    rw [mergeSort_perm_eq l' l hperm.symm]

/-- Concrete instance of C8: fresh artifact table, two-file listing. -/
theorem C8_scan_idempotent_witness :
    ¬ ("ws1" : String) = "" ∧
    (scan_workspace id ["deploy.sh", "README.md"] "ws1"
        ((scan_workspace id ["deploy.sh", "README.md"] "ws1" []).2)).1
      = (scan_workspace id ["deploy.sh", "README.md"] "ws1" []).1 ∧
    (scan_workspace id ["deploy.sh", "README.md"] "ws1" []).2
      = [] ++ [(scan_workspace id ["deploy.sh", "README.md"] "ws1" []).1] ∧
    (((scan_workspace id ["deploy.sh", "README.md"] "ws1"
        ((scan_workspace id ["deploy.sh", "README.md"] "ws1" []).2)).2).filter
      (artifactKeyIs "ws1"
        (computeScanInputsHash id ["deploy.sh", "README.md"] SCANNER_RULESET_VERSION))).length
      = 1 ∧
    computeScanInputsHash id ["README.md", "deploy.sh"] SCANNER_RULESET_VERSION
      = computeScanInputsHash id ["deploy.sh", "README.md"] SCANNER_RULESET_VERSION := by
  have h := C8_scan_idempotent id ["deploy.sh", "README.md"] "ws1" [] (by decide)
    (fun a ha => absurd ha (List.not_mem_nil a))
  exact ⟨by decide, h.1, h.2.2.1, h.2.2.2.1,
    h.2.2.2.2 ["README.md", "deploy.sh"] (List.Perm.swap "README.md" "deploy.sh" [])⟩

/-- Modelled from the spec: `PromptStatus` (the prompt state machine module
`atlasbridge/core/prompt/state.py` is not part of the source tree; states
and the transition table follow spec section 4.3). -/
inductive PromptStatus where
  | created
  | routed
  | awaiting_reply
  | reply_received
  | injected
  | resolved
  | expired
  | canceled
  | failed
  deriving DecidableEq, Repr

/-- Modelled from the spec: the total transition table `VALID_TRANSITIONS`
of section 4.3; terminal states map to the empty set. -/
def VALID_TRANSITIONS : PromptStatus → List PromptStatus
  | .created => [.routed, .failed]
  | .routed => [.awaiting_reply, .failed]
  | .awaiting_reply => [.reply_received, .expired, .canceled, .failed]
  | .reply_received => [.injected, .failed]
  | .injected => [.resolved, .failed]
  | .resolved => []
  | .expired => []
  | .canceled => []
  | .failed => []

/-- Modelled from the spec: `TERMINAL_STATES`. -/
def TERMINAL_STATES : List PromptStatus := [.resolved, .expired, .canceled, .failed]

/-- The `InvalidTransition` error, identifying the attempted edge. -/
structure InvalidTransition where
  source : PromptStatus
  target : PromptStatus
  deriving DecidableEq, Repr

/-- Modelled from the spec: the mutable part of `PromptStateMachine` — the
current status and the append-only `(status, note, timestamp)` history. -/
structure PromptStateMachine where
  status : PromptStatus
  history : List (PromptStatus × String × Int)
  deriving DecidableEq, Repr

/-- Modelled from the spec: `transition(new_status, note="")` — append
`(new_status, note, now())` to history and mutate the current status when
the edge is allowed, otherwise fail with `InvalidTransition`. -/
def transition (m : PromptStateMachine) (new : PromptStatus) (note : String)
    (now : Int) : Except InvalidTransition PromptStateMachine :=
  if (VALID_TRANSITIONS m.status).contains new then
    .ok { status := new, history := m.history ++ [(new, note, now)] }
  else .error ⟨m.status, new⟩

/-- C5: a transition succeeds exactly when the attempted edge appears in
the section 4.3 table; the four terminal states admit no outgoing
transition; a disallowed attempt fails with an `InvalidTransition` naming
the attempted edge; and a successful transition appends exactly one
`(status, note, timestamp)` entry to the history, which `transition` — the
only mutating operation — never removes or rewrites. -/
theorem C5_state_machine (m : PromptStateMachine) (s : PromptStatus)
    (note : String) (now : Int) :
    ((transition m s note now).isOk = true ↔ s ∈ VALID_TRANSITIONS m.status) ∧
    (∀ t ∈ TERMINAL_STATES, VALID_TRANSITIONS t = []) ∧
    (m.status ∈ TERMINAL_STATES → transition m s note now = .error ⟨m.status, s⟩) ∧
    (s ∉ VALID_TRANSITIONS m.status →
      transition m s note now = .error ⟨m.status, s⟩) ∧
    (∀ m', transition m s note now = .ok m' →
      m'.status = s ∧ m'.history = m.history ++ [(s, note, now)]) := by
  have hterm : ∀ t ∈ TERMINAL_STATES, VALID_TRANSITIONS t = [] := by
    intro t ht
    fin_cases ht <;> rfl
  refine ⟨?_, hterm, ?_, ?_, ?_⟩
  · unfold transition
    by_cases hmem : s ∈ VALID_TRANSITIONS m.status
    · simp [List.elem_iff.mpr hmem, hmem, Except.isOk, Except.toBool]
    · have : (VALID_TRANSITIONS m.status).contains s = false := by
        rw [← Bool.not_eq_true, List.elem_iff]
        exact hmem
      simp [this, hmem, Except.isOk, Except.toBool]
  · intro ht
    have hempty := hterm m.status ht
    unfold transition
    rw [hempty]
    rfl
  · intro hmem
    have : (VALID_TRANSITIONS m.status).contains s = false := by
      rw [← Bool.not_eq_true, List.elem_iff]
      exact hmem
    unfold transition
    rw [this]
    rfl
  · intro m' hok
    unfold transition at hok
    by_cases hc : (VALID_TRANSITIONS m.status).contains s = true
    · rw [hc] at hok
      simp only [if_true] at hok
      cases hok
      exact ⟨rfl, rfl⟩
    · rw [Bool.not_eq_true] at hc
      rw [hc] at hok
      simp at hok

/-- Concrete instance of C5: the allowed edge `created → routed` succeeds
and appends one history entry; `created → resolved` is refused with the
attempted edge; `resolved` is terminal. -/
theorem C5_state_machine_witness :
    ((transition ⟨.created, []⟩ .routed "route" 5).isOk = true
      ↔ PromptStatus.routed ∈ VALID_TRANSITIONS .created) ∧
    VALID_TRANSITIONS .resolved = [] ∧
    transition ⟨.resolved, []⟩ .created "" 9 = .error ⟨.resolved, .created⟩ ∧
    transition ⟨.created, []⟩ .resolved "" 7 = .error ⟨.created, .resolved⟩ ∧
    (transition ⟨.created, []⟩ .routed "route" 5
      = .ok ⟨.routed, [(.routed, "route", 5)]⟩) := by
  have h1 := C5_state_machine ⟨.created, []⟩ .routed "route" 5
  have h2 := C5_state_machine ⟨.resolved, []⟩ .created "" 9
  have h3 := C5_state_machine ⟨.created, []⟩ .resolved "" 7
  refine ⟨h1.1, h1.2.1 .resolved (by decide), h2.2.2.1 (by decide),
    h3.2.2.2.1 (by decide), ?_⟩
  have hok : (transition ⟨.created, []⟩ .routed "route" 5).isOk = true :=
    h1.1.mpr (by decide)
  match hres : transition (⟨.created, []⟩ : PromptStateMachine) .routed "route" 5 with
  | .error e =>
    rw [hres] at hok
    simp [Except.isOk, Except.toBool] at hok
  | .ok m' =>
    obtain ⟨hst, hh⟩ := h1.2.2.2.2 m' hres
    have hm' : m' = ⟨.routed, [(.routed, "route", 5)]⟩ := by
      cases m'
      simp only at hst hh
      simp [hst, hh]
    rw [hm']

/-- Modelled from the spec: `PromptType` (the policy model module is not
part of the source tree). -/
inductive PromptType where
  | yes_no
  | confirm_enter
  | multiple_choice
  | free_text
  deriving DecidableEq, Repr

/-- Modelled from the spec: confidence levels, ordinal
`low < medium < high`. -/
inductive Confidence where
  | low
  | medium
  | high
  deriving DecidableEq, Repr

/-- Ordinal rank of a confidence level. -/
def Confidence.rank : Confidence → Nat
  | .low => 0
  | .medium => 1
  | .high => 2

/-- Modelled from the spec: `AutonomyMode` (OFF/ASSIST/FULL). -/
inductive AutonomyMode where
  | off
  | assist
  | full
  deriving DecidableEq, Repr

/-- Modelled from the spec: the tagged action union
`AutoReplyAction(value) | DenyAction | RequireHumanAction(message)`. -/
inductive PolicyAction where
  | autoReply (value : String)
  | deny
  | requireHuman (message : Option String)
  deriving DecidableEq, Repr

/-- Modelled from the spec: the only values a policy default may take. -/
inductive FallbackKind where
  | require_human
  | deny
  deriving DecidableEq, Repr

/-- Modelled from the spec: `PolicyDefaults`, both fields defaulting to
`require_human`. -/
structure PolicyDefaults where
  no_match : FallbackKind := .require_human
  low_confidence : FallbackKind := .require_human
  deriving DecidableEq, Repr

/-- Parse a default string into a `FallbackKind`; `auto_reply` or any
other string is refused. -/
def parseFallback (s : String) : Option FallbackKind :=
  if s = "require_human" then some .require_human
  else if s = "deny" then some .deny
  else none

/-- Modelled from the spec: construction-time validation of
`PolicyDefaults` — each default must be the literal `require_human` or
`deny`, so a `PolicyDefaults` carrying `auto_reply` can never be built. -/
def mkPolicyDefaults (no_match low_confidence : String) :
    Except String PolicyDefaults :=
  match parseFallback no_match, parseFallback low_confidence with
  | some a, some b => .ok ⟨a, b⟩
  | _, _ => .error "PolicyDefaults fields must be require_human or deny"

/-- Modelled from the spec: `MatchCriteria`, every criterion optional. -/
structure MatchCriteria where
  prompt_type : Option (List PromptType) := none
  min_confidence : Option Confidence := none
  workspace_trusted : Option Bool := none
  workspace_profile : Option String := none
  deriving DecidableEq, Repr

/-- Modelled from the spec: `PolicyRule` (`criteria` is the rule's `match`
field, renamed because `match` is a Lean keyword). -/
structure PolicyRule where
  id : String
  criteria : MatchCriteria
  action : PolicyAction
  deriving DecidableEq, Repr

/-- Modelled from the spec: a policy document. -/
structure Policy where
  name : String := ""
  policy_version : String
  autonomy_mode : AutonomyMode := .full
  rules : List PolicyRule
  defaults : PolicyDefaults
  deriving DecidableEq, Repr

/-- The prompt facts handed to `evaluate`. -/
structure EvalArgs where
  prompt_text : String
  prompt_type : PromptType
  confidence : Confidence
  prompt_id : String
  session_id : String
  workspace_trusted : Option Bool := none
  workspace_profile : Option String := none
  deriving DecidableEq, Repr

/-- Modelled from the spec: the decision record `evaluate` returns. -/
structure PolicyDecision where
  prompt_id : String
  session_id : String
  matched_rule_id : Option String
  action_type : String
  action_value : Option String
  explanation : String
  confidence : Confidence
  prompt_type : PromptType
  autonomy_mode : AutonomyMode
  deriving DecidableEq, Repr

/-- Modelled from the spec: a rule matches iff every populated criterion
holds — prompt type membership, `confidence ≥ min_confidence`, workspace
trust equality, workspace profile equality. -/
def ruleMatches (r : PolicyRule) (a : EvalArgs) : Bool :=
  (match r.criteria.prompt_type with
   | none => true
   | some pts => pts.contains a.prompt_type) &&
  (match r.criteria.min_confidence with
   | none => true
   | some mc => decide (mc.rank ≤ a.confidence.rank)) &&
  (match r.criteria.workspace_trusted with
   | none => true
   | some b => a.workspace_trusted == some b) &&
  (match r.criteria.workspace_profile with
   | none => true
   | some p => a.workspace_profile == some p)

/-- The `action_type` string a fallback default resolves to. -/
def fallbackActionType : FallbackKind → String
  | .require_human => "require_human"
  | .deny => "deny"

/-- Modelled from the spec: `evaluate(policy, ...)` — iterate the rules in
declared order, first match wins; with no match, apply
`defaults.low_confidence` when confidence is low and `defaults.no_match`
otherwise.  The decision always carries the policy's autonomy mode; the
evaluator itself is mode-agnostic. -/
def evaluate (policy : Policy) (a : EvalArgs) : PolicyDecision :=
  match policy.rules.find? (fun r => ruleMatches r a) with
  | some r =>
    match r.action with
    | .autoReply v =>
      { prompt_id := a.prompt_id, session_id := a.session_id,
        matched_rule_id := some r.id, action_type := "auto_reply",
        action_value := some v, explanation := "rule " ++ r.id ++ " matched",
        confidence := a.confidence, prompt_type := a.prompt_type,
        autonomy_mode := policy.autonomy_mode }
    | .deny =>
      { prompt_id := a.prompt_id, session_id := a.session_id,
        matched_rule_id := some r.id, action_type := "deny",
        action_value := none, explanation := "rule " ++ r.id ++ " matched",
        confidence := a.confidence, prompt_type := a.prompt_type,
        autonomy_mode := policy.autonomy_mode }
    | .requireHuman _ =>
      { prompt_id := a.prompt_id, session_id := a.session_id,
        matched_rule_id := some r.id, action_type := "require_human",
        action_value := none, explanation := "rule " ++ r.id ++ " matched",
        confidence := a.confidence, prompt_type := a.prompt_type,
        autonomy_mode := policy.autonomy_mode }
  | none =>
    let fb := if a.confidence = .low then policy.defaults.low_confidence
      else policy.defaults.no_match
    { prompt_id := a.prompt_id, session_id := a.session_id,
      matched_rule_id := none, action_type := fallbackActionType fb,
      action_value := none, explanation := "no rule matched; applying default",
      confidence := a.confidence, prompt_type := a.prompt_type,
      autonomy_mode := policy.autonomy_mode }

/-- C2: whenever no rule matches the supplied facts (any prompt type, any
confidence), `evaluate` applies `defaults.low_confidence` for low
confidence and `defaults.no_match` otherwise, the resulting `action_type`
is `require_human` or `deny` and never `auto_reply`; and `PolicyDefaults`
cannot be constructed with `auto_reply` as either default. -/
theorem C2_no_match_never_auto_reply (policy : Policy) (a : EvalArgs)
    (hnone : ∀ r ∈ policy.rules, ruleMatches r a = false) :
    (evaluate policy a).action_type
      = fallbackActionType (if a.confidence = .low then policy.defaults.low_confidence
          else policy.defaults.no_match) ∧
    ((evaluate policy a).action_type = "require_human" ∨
      (evaluate policy a).action_type = "deny") ∧
    (evaluate policy a).action_type ≠ "auto_reply" ∧
    (∀ x : String, (mkPolicyDefaults "auto_reply" x).isOk = false) ∧
    (∀ x : String, (mkPolicyDefaults x "auto_reply").isOk = false) := by
  have hfind : policy.rules.find? (fun r => ruleMatches r a) = none :=
    List.find?_eq_none.mpr (fun r hr => by simp [hnone r hr])
  have heval : (evaluate policy a).action_type
      = fallbackActionType (if a.confidence = .low then policy.defaults.low_confidence
          else policy.defaults.no_match) := by
    unfold evaluate
    rw [hfind]
  have hsafe : ∀ fb : FallbackKind,
      fallbackActionType fb = "require_human" ∨ fallbackActionType fb = "deny" := by
    intro fb
    cases fb
    · exact Or.inl rfl
    · exact Or.inr rfl
  have hkind := hsafe (if a.confidence = .low then policy.defaults.low_confidence
    else policy.defaults.no_match)
  refine ⟨heval, ?_, ?_, ?_, ?_⟩
  · rw [heval]
    exact hkind
  · rw [heval]
    rcases hkind with h | h <;> rw [h] <;> decide
  · intro x
    unfold mkPolicyDefaults
    rw [show parseFallback "auto_reply" = none from rfl]
    cases parseFallback x <;> rfl
  · intro x
    unfold mkPolicyDefaults
    rw [show parseFallback "auto_reply" = none from rfl]
    cases parseFallback x <;> rfl

/-- The empty-rule policy the safety tests build. -/
def emptyPolicy : Policy :=
  { name := "empty", policy_version := "0", autonomy_mode := .full,
    rules := [], defaults := {} }

/-- Prompt facts for a given prompt type and confidence. -/
def argsOf (pt : PromptType) (conf : Confidence) : EvalArgs :=
  { prompt_text := "Some prompt text", prompt_type := pt, confidence := conf,
    prompt_id := "p-004", session_id := "s-004" }

/-- Concrete instance of C2: the empty-rule policy escalates for every
prompt type, and `auto_reply` defaults are refused at construction. -/
theorem C2_no_match_never_auto_reply_witness :
    (evaluate emptyPolicy (argsOf .yes_no .high)).action_type ≠ "auto_reply" ∧
    (evaluate emptyPolicy (argsOf .confirm_enter .high)).action_type ≠ "auto_reply" ∧
    (evaluate emptyPolicy (argsOf .multiple_choice .medium)).action_type ≠ "auto_reply" ∧
    (evaluate emptyPolicy (argsOf .free_text .low)).action_type ≠ "auto_reply" ∧
    (evaluate emptyPolicy (argsOf .free_text .low)).action_type
      = fallbackActionType emptyPolicy.defaults.low_confidence ∧
    (evaluate emptyPolicy (argsOf .yes_no .high)).action_type
      = fallbackActionType emptyPolicy.defaults.no_match ∧
    (mkPolicyDefaults "auto_reply" "deny").isOk = false ∧
    (mkPolicyDefaults "deny" "auto_reply").isOk = false := by
  have h := fun pt conf => C2_no_match_never_auto_reply emptyPolicy (argsOf pt conf)
    (fun r hr => absurd hr (List.not_mem_nil r))
  exact ⟨(h .yes_no .high).2.2.1, (h .confirm_enter .high).2.2.1,
    (h .multiple_choice .medium).2.2.1, (h .free_text .low).2.2.1,
    (h .free_text .low).1, (h .yes_no .high).1,
    (h .yes_no .high).2.2.2.1 "deny", (h .yes_no .high).2.2.2.2 "deny"⟩

/-- An OFF-mode policy whose rule list contains a matching auto-reply rule
behind an earlier matching deny rule. -/
def policyC4cx : Policy :=
  { name := "cx", policy_version := "0", autonomy_mode := .off,
    rules := [⟨"deny-all", {}, .deny⟩, ⟨"auto-yes", {}, .autoReply "y"⟩],
    defaults := {} }

/-- The facts used against `policyC4cx`. -/
def argsC4 : EvalArgs :=
  { prompt_text := "Continue? [y/n]", prompt_type := .yes_no, confidence := .high,
    prompt_id := "esc-test", session_id := "esc-session" }

/-- C4 as stated is false: `policyC4cx` has autonomy mode OFF and its rule
list contains a rule matching `argsC4` with an `AutoReplyAction`, yet
`evaluate` returns `deny`, because first match wins and an earlier deny
rule also matches. -/
theorem C4_counterexample :
    policyC4cx.autonomy_mode = .off ∧
    (∃ r, r ∈ policyC4cx.rules ∧ ruleMatches r argsC4 = true ∧
      r.action = .autoReply "y") ∧
    (evaluate policyC4cx argsC4).action_type = "deny" ∧
    (evaluate policyC4cx argsC4).action_type ≠ "auto_reply" := by
  refine ⟨rfl, ⟨⟨"auto-yes", {}, .autoReply "y"⟩, by decide, by decide, rfl⟩, rfl, by decide⟩

/-- C4 (amended): `evaluate` is mode-agnostic — when the FIRST rule
matching the supplied facts carries an `AutoReplyAction`, the decision has
`action_type = auto_reply` even under autonomy mode OFF, and it carries the
policy's autonomy mode so the calling engine can escalate; moreover, for
every policy and every prompt, changing the autonomy mode changes neither
which rule matches nor the returned `action_type`/`action_value`. -/
theorem C4_evaluator_mode_agnostic (policy : Policy) (a : EvalArgs)
    (r : PolicyRule) (v : String)
    (hmode : policy.autonomy_mode = .off)
    (hfirst : policy.rules.find? (fun r' => ruleMatches r' a) = some r)
    (hact : r.action = .autoReply v) :
    (evaluate policy a).action_type = "auto_reply" ∧
    (evaluate policy a).autonomy_mode = .off ∧
    (∀ (q : Policy) (b : EvalArgs) (m' : AutonomyMode),
      (evaluate { q with autonomy_mode := m' } b).action_type
        = (evaluate q b).action_type ∧
      (evaluate { q with autonomy_mode := m' } b).matched_rule_id
        = (evaluate q b).matched_rule_id ∧
      (evaluate { q with autonomy_mode := m' } b).action_value
        = (evaluate q b).action_value) := by
  refine ⟨?_, ?_, ?_⟩
  · unfold evaluate
    rw [hfirst]
    dsimp only
    rw [hact]
  · unfold evaluate
    rw [hfirst]
    dsimp only
    rw [hact]
    exact hmode
  · intro q b m'
    unfold evaluate
    have hrules : ({ q with autonomy_mode := m' } : Policy).rules = q.rules := rfl
    rw [hrules]
    cases hf : q.rules.find? (fun r' => ruleMatches r' b) with
    | none => exact ⟨rfl, rfl, rfl⟩
    | some r' =>
      dsimp only
      cases h' : r'.action <;> exact ⟨rfl, rfl, rfl⟩

/-- An OFF-mode policy whose first (only) rule is a matching auto-reply
rule. -/
def policyC4w : Policy :=
  { name := "escalation-test", policy_version := "0", autonomy_mode := .off,
    rules := [⟨"allow-yes-no", ⟨some [.yes_no], some .high, none, none⟩,
      .autoReply "y"⟩],
    defaults := {} }

/-- Concrete instance of the amended C4: under OFF mode the matching
auto-reply rule still yields `auto_reply`, the decision carries mode OFF,
and flipping the mode to FULL changes none of the rule-driven fields. -/
theorem C4_evaluator_mode_agnostic_witness :
    policyC4w.autonomy_mode = .off ∧
    policyC4w.rules.find? (fun r' => ruleMatches r' argsC4)
      = some ⟨"allow-yes-no", ⟨some [.yes_no], some .high, none, none⟩,
        .autoReply "y"⟩ ∧
    (evaluate policyC4w argsC4).action_type = "auto_reply" ∧
    (evaluate policyC4w argsC4).autonomy_mode = .off ∧
    (evaluate { policyC4w with autonomy_mode := .full } argsC4).action_type
      = (evaluate policyC4w argsC4).action_type ∧
    (evaluate { policyC4w with autonomy_mode := .full } argsC4).matched_rule_id
      = (evaluate policyC4w argsC4).matched_rule_id := by
  have h := C4_evaluator_mode_agnostic policyC4w argsC4
    ⟨"allow-yes-no", ⟨some [.yes_no], some .high, none, none⟩, .autoReply "y"⟩ "y"
    rfl (by decide) rfl
  exact ⟨rfl, by decide, h.1, h.2.1, (h.2.2 policyC4w argsC4 .full).1,
    (h.2.2 policyC4w argsC4 .full).2.1⟩

/-- Modelled from the spec: a row of the `prompts` table as touched by the
Injection Guard — status, creation-time nonce, the consumed flag, the TTL
expiry instant, and the fields filled on a successful decide. -/
structure PromptRow where
  id : String
  status : String
  nonce : String
  nonce_used : Bool
  expires_at : Int
  resolved_at : Option Int
  channel_identity : Option String
  reply_value : Option String
  deriving DecidableEq, Repr

/-- The WHERE clause of the atomic conditional UPDATE: the row exists under
`prompt_id`, is awaiting a reply, carries the supplied nonce which has not
been consumed, and has not passed its expiry. -/
def decideCond (prompt_id nonce : String) (now : Int) (r : PromptRow) : Bool :=
  r.id == prompt_id && r.status == "awaiting_reply" && r.nonce == nonce &&
    !r.nonce_used && decide (now < r.expires_at)

/-- The SET clause applied to a row the WHERE clause selects: move to the
resolved path, consume the nonce, record the resolution time and the
channel identity that supplied the reply. -/
def applyDecide (now : Int) (channel_identity reply_value : String)
    (r : PromptRow) : PromptRow :=
  { r with
    status := "resolved", nonce_used := true, resolved_at := some now,
    channel_identity := some channel_identity, reply_value := some reply_value }

/-- Modelled from the spec: `decide_prompt(prompt_id, event_type,
channel_identity, reply_value, nonce)` — one atomic conditional UPDATE;
the result is the affected row count (0 or 1 under a unique prompt id)
together with the updated table, and no precondition violation raises.
`event_type` feeds the audit path only and does not enter the row
update. -/
def decide_prompt (db : List PromptRow) (now : Int)
    (prompt_id event_type channel_identity reply_value nonce : String) :
    Nat × List PromptRow :=
  ((db.filter (decideCond prompt_id nonce now)).length,
    db.map (fun r =>
      if decideCond prompt_id nonce now r
      then applyDecide now channel_identity reply_value r else r))

/-- One call to `decide_prompt`, for reasoning about call sequences. -/
structure CallArgs where
  now : Int
  prompt_id : String
  event_type : String
  channel_identity : String
  reply_value : String
  nonce : String
  deriving DecidableEq, Repr

/-- The table after one call. -/
def runDecide (db : List PromptRow) (c : CallArgs) : List PromptRow :=
  (decide_prompt db c.now c.prompt_id c.event_type c.channel_identity
    c.reply_value c.nonce).2

/-- How many rows of the prompt `target` one call updates. -/
def callTouched (db : List PromptRow) (c : CallArgs) (target : String) : Nat :=
  (db.filter (fun r => decideCond c.prompt_id c.nonce c.now r && r.id == target)).length

/-- Total number of decisions applied to the prompt `target` across a
sequence of calls. -/
def totalApplied (target : String) : List PromptRow → List CallArgs → Nat
  | _, [] => 0
  | db, c :: rest => callTouched db c target + totalApplied target (runDecide db c) rest

/-- Rows of the prompt `target` that are still decidable (nonce not yet
consumed). -/
def availFor (target : String) (db : List PromptRow) : Nat :=
  (db.filter (fun r => r.id == target && !r.nonce_used)).length

theorem availFor_runDecide (target : String) (db : List PromptRow) (c : CallArgs) :
    availFor target (runDecide db c) + callTouched db c target = availFor target db := by
  have hflen : ∀ (p : PromptRow → Bool) (x : PromptRow) (l : List PromptRow),
      (List.filter p (x :: l)).length
        = (if p x then 1 else 0) + (List.filter p l).length := by
    intro p x l
    rw [List.filter_cons]
    split <;> simp [Nat.add_comm]
  induction db with
  | nil => rfl
  | cons r rest ih =>
    have hrun : runDecide (r :: rest) c
        = (if decideCond c.prompt_id c.nonce c.now r
           then applyDecide c.now c.channel_identity c.reply_value r else r)
          :: runDecide rest c := by
      unfold runDecide decide_prompt
      simp
    rw [hrun]
    unfold availFor callTouched at ih ⊢
    simp only [hflen]
    rcases Bool.eq_false_or_eq_true (decideCond c.prompt_id c.nonce c.now r) with hc | hc
    · have hnu : r.nonce_used = false := by
        unfold decideCond at hc
        simp only [Bool.and_eq_true, Bool.not_eq_true'] at hc
        exact hc.1.2
      rw [if_pos hc]
      rcases Bool.eq_false_or_eq_true (r.id == target) with ht | ht
      · simp [hc, ht, hnu, applyDecide]
        omega
      · simp [hc, ht, hnu, applyDecide]
        omega
    · rw [if_neg (show ¬(decideCond c.prompt_id c.nonce c.now r = true) by simp [hc])]
      simp only [hc, Bool.false_and, Bool.false_eq_true, if_false]
      omega

theorem totalApplied_le_avail (target : String) (db : List PromptRow)
    (calls : List CallArgs) :
    totalApplied target db calls ≤ availFor target db := by
  induction calls generalizing db with
  | nil => exact Nat.zero_le _
  | cons c rest ih =>
    unfold totalApplied
    have h := availFor_runDecide target db c
    have h2 := ih (runDecide db c)
    omega

/-- C3: for a stored prompt in `awaiting_reply` with an unconsumed nonce
and unexpired TTL, `decide_prompt` returns 1 exactly once; a replay with
the same nonce, a wrong nonce, a call after expiry, a call in another
status, and a call for an unknown prompt id all return 0 without raising;
and over any call sequence at most one decision is ever applied per
prompt. -/
theorem C3_decide_prompt_at_most_once (row : PromptRow) (now : Int)
    (pid ev ch rv n : String)
    (hid : row.id = pid) (hst : row.status = "awaiting_reply")
    (hn : row.nonce = n) (hnu : row.nonce_used = false)
    (hexp : now < row.expires_at) :
    (decide_prompt [row] now pid ev ch rv n).1 = 1 ∧
    (∀ (now2 : Int) (ev2 ch2 rv2 n2 : String),
      (decide_prompt (decide_prompt [row] now pid ev ch rv n).2
        now2 pid ev2 ch2 rv2 n2).1 = 0) ∧
    (∀ n', n' ≠ n → (decide_prompt [row] now pid ev ch rv n').1 = 0) ∧
    (∀ now' : Int, row.expires_at < now' →
      (decide_prompt [row] now' pid ev ch rv n).1 = 0) ∧
    (∀ r : PromptRow, r.status ≠ "awaiting_reply" →
      (decide_prompt [r] now pid ev ch rv n).1 = 0) ∧
    (∀ (db : List PromptRow) (pid' : String), (∀ r ∈ db, r.id ≠ pid') →
      (decide_prompt db now pid' ev ch rv n).1 = 0) ∧
    (∀ (db : List PromptRow) (calls : List CallArgs) (target : String),
      availFor target db ≤ 1 → totalApplied target db calls ≤ 1) := by
  have hcond : decideCond pid n now row = true := by
    simp [decideCond, hid, hst, hn, hnu, hexp]
  refine ⟨?_, ?_, ?_, ?_, ?_, ?_, ?_⟩
  · simp [decide_prompt, hcond]
  · intro now2 ev2 ch2 rv2 n2
    simp only [decide_prompt, List.filter_cons, List.map_cons, List.map_nil, hcond,
      if_true]
    simp [decideCond, applyDecide]
  · intro n' hne
    have : decideCond pid n' now row = false := by
      simp [decideCond, hn]
      intro _ _
      exact fun h => absurd h.symm hne
    simp [decide_prompt, this]
  · intro now' hlate
    have : decideCond pid n now' row = false := by
      simp [decideCond]
      intro _ _ _ _
      omega
    simp [decide_prompt, this]
  · intro r hr
    have : decideCond pid n now r = false := by
      simp [decideCond]
      intro _
      exact fun h => absurd h hr
    simp [decide_prompt, this]
  · intro db pid' hdb
    have : db.filter (decideCond pid' n now) = [] := by
      apply List.filter_eq_nil_iff.mpr
      intro r hr
      simp [decideCond]
      intro h
      exact absurd h (hdb r hr)
    simp [decide_prompt, this]
  · intro db calls target havail
    exact le_trans (totalApplied_le_avail target db calls) havail

/-- A stored prompt awaiting its reply, for the C3 witness. -/
def rowC3 : PromptRow :=
  { id := "prompt-001", status := "awaiting_reply", nonce := "nonce-abc",
    nonce_used := false, expires_at := 300, resolved_at := none,
    channel_identity := none, reply_value := none }

/-- `rowC3` already moved to `resolved`. -/
def rowC3resolved : PromptRow := { rowC3 with status := "resolved" }

/-- Two deliveries of the same reply for the same prompt. -/
def callC3a : CallArgs :=
  ⟨0, "prompt-001", "reply_received", "tg:123", "y", "nonce-abc"⟩

/-- A replay of `callC3a` a moment later. -/
def callC3b : CallArgs :=
  ⟨1, "prompt-001", "reply_received", "tg:123", "y", "nonce-abc"⟩

/-- Concrete instance of C3: the valid decide returns 1; replay, wrong
nonce, expiry, wrong status and unknown id return 0; two deliveries apply
at most one decision. -/
theorem C3_decide_prompt_at_most_once_witness :
    (decide_prompt [rowC3] 0 "prompt-001" "reply_received" "tg:123" "y"
      "nonce-abc").1 = 1 ∧
    (decide_prompt (decide_prompt [rowC3] 0 "prompt-001" "reply_received" "tg:123"
      "y" "nonce-abc").2 1 "prompt-001" "reply_received" "tg:123" "y"
      "nonce-abc").1 = 0 ∧
    (decide_prompt [rowC3] 0 "prompt-001" "reply_received" "tg:123" "y"
      "wrong-nonce").1 = 0 ∧
    (decide_prompt [rowC3] 301 "prompt-001" "reply_received" "tg:123" "y"
      "nonce-abc").1 = 0 ∧
    (decide_prompt [rowC3resolved] 0 "prompt-001" "reply_received" "tg:123" "y"
      "nonce-abc").1 = 0 ∧
    (decide_prompt [rowC3] 0 "nonexistent-id" "reply_received" "tg:123" "y"
      "nonce-abc").1 = 0 ∧
    totalApplied "prompt-001" [rowC3] [callC3a, callC3b] ≤ 1 := by
  have h := C3_decide_prompt_at_most_once rowC3 0 "prompt-001" "reply_received"
    "tg:123" "y" "nonce-abc" rfl rfl rfl rfl (by decide)
  exact ⟨h.1, h.2.1 1 "reply_received" "tg:123" "y" "nonce-abc",
    h.2.2.1 "wrong-nonce" (by decide), h.2.2.2.1 301 (by decide),
    h.2.2.2.2.1 rowC3resolved (by decide),
    h.2.2.2.2.2.1 [rowC3] "nonexistent-id"
      (fun r hr => by
        rw [List.mem_singleton.mp hr]
        decide),
    h.2.2.2.2.2.2 [rowC3] [callC3a, callC3b] "prompt-001" (by decide)⟩

end AtlasBridge
